import Mathlib

/-!
Verification development for the PismoNautilus nautilus-server.

The Rust sources under src/nautilus-server are shallowly embedded below:
pure functions become Lean functions, the network and clock effects of
`process_data` become explicit parameters, `u64` arithmetic becomes `Nat`
with explicit `2 ^ 64` bounds, and fallible code returns `Except String`.
Arithmetic-overflow panics are modeled as `Except.error` values whose text
starts with "panic:".
-/

namespace Pismo

/-- JSON values as consumed by the server.  A `serde_json` number is kept as
its canonical decimal text, which is the only way the code observes numbers
(`Value::is_number` and `Value::to_string`). -/
inductive Json where
  | null : Json
  | bool : Bool → Json
  | num : String → Json
  | str : String → Json
  | arr : List Json → Json
  | obj : List (String × Json) → Json

/-- Object-member lookup by exact key (serde_json map lookup; maps hold no
duplicate keys, so first-match lookup is faithful). -/
def assocGet : List (String × Json) → String → Option Json
  | [], _ => none
  | (k, v) :: rest, key => if k = key then some v else assocGet rest key

/-- `serde_json::Value::get` with a string key: member of an object, `None` on
every other variant. -/
def Json.get : Json → String → Option Json
  | .obj fs, key => assocGet fs key
  | _, _ => none

/-- `serde_json::Value::get` with a `usize` index: element of an array, `None`
on every other variant. -/
def Json.getIdx : Json → Nat → Option Json
  | .arr xs, i => xs.get? i
  | _, _ => none

/-- `Value::as_str`. -/
def Json.asStr : Json → Option String
  | .str s => some s
  | _ => none

/-- `Value::as_bool`. -/
def Json.asBool : Json → Option Bool
  | .bool b => some b
  | _ => none

/-- Rust `str::find` for a single character.  The model works at character
granularity; the source uses byte indices, which coincide for ASCII paths. -/
def findCh (c : Char) : List Char → Option Nat
  | [] => none
  | x :: xs => if x = c then some 0 else (findCh c xs).map (fun i => i + 1)

/-- Decimal value of a digit string (most significant first). -/
def digitsVal (cs : List Char) : Nat :=
  cs.foldl (fun a c => a * 10 + (c.toNat - 48)) 0

/-- Rust `str::parse::<usize>` (app.rs:60): an optional leading plus sign, one
or more ASCII digits, and a value below `2 ^ 64` (64-bit `usize`); anything
else is an error. -/
def parseUsize (cs : List Char) : Option Nat :=
  let ds := match cs with
    | '+' :: rest => rest
    | _ => cs
  if ds ≠ [] ∧ ds.all Char.isDigit ∧ digitsVal ds < 2 ^ 64 then
    some (digitsVal ds)
  else none

/-- The `while` loop of `extract_field_from_json` (app.rs:42-90), one loop
iteration per recursive call.  A Rust slice `&s[a..b]` with `a > b` panics;
that branch is modeled as an error whose text starts with "panic:". -/
def extractAux (current : Json) (rp : List Char) : Except String Json :=
  if hrp : rp = [] then .ok current
  else
    match findCh '[' rp with
    | some bs =>
      let fieldName := rp.take bs
      let step :=
        if fieldName ≠ [] then
          match current.get (String.mk fieldName) with
          | some v => Except.ok v
          | none => Except.error ("Field \x27" ++ String.mk fieldName ++ "\x27 not found")
        else Except.ok current
      match step with
      | .error e => .error e
      | .ok cur1 =>
        match findCh ']' rp with
        | none => .error "Missing closing bracket in field path"
        | some be =>
          if be < bs + 1 then .error "panic: slice index starts after it ends"
          else
            let indexStr := (rp.take be).drop (bs + 1)
            match parseUsize indexStr with
            | none => .error ("Invalid array index: \x27" ++ String.mk indexStr ++ "\x27")
            | some idx =>
              match cur1.getIdx idx with
              | none => .error ("Array index " ++ Nat.repr idx ++ " not found or out of bounds")
              | some cur2 =>
                extractAux cur2
                  (if ((rp.drop (be + 1)).head? = some '.') then
                    (rp.drop (be + 1)).drop 1
                  else rp.drop (be + 1))
    | none =>
      match findCh '.' rp with
      | some dp =>
        match current.get (String.mk (rp.take dp)) with
        | none => .error ("Field \x27" ++ String.mk (rp.take dp) ++ "\x27 not found")
        | some v => extractAux v (rp.drop (dp + 1))
      | none =>
        match current.get (String.mk rp) with
        | none => .error ("Field \x27" ++ String.mk rp ++ "\x27 not found")
        | some v => .ok v
termination_by rp.length
decreasing_by
  all_goals
    have h0 : 0 < rp.length := List.length_pos.mpr hrp
  · split <;> (simp only [List.length_drop]; omega)
  · simp only [List.length_drop]
    omega

/-- `extract_field_from_json` (app.rs:38-93). -/
def extract_field_from_json (json : Json) (fieldPath : String) : Except String Json :=
  extractAux json fieldPath.toList

/-- A `rust_decimal::Decimal`: sign flag, magnitude below `2 ^ 96` and scale at
most 28, denoting the value `(-1) ^ neg * m / 10 ^ s`. -/
structure Decimal where
  neg : Bool
  m : Nat
  s : Nat
deriving DecidableEq

/-- The representation invariant of `rust_decimal::Decimal`. -/
def Decimal.Valid (x : Decimal) : Prop := x.m < 2 ^ 96 ∧ x.s ≤ 28

/-- Split a character list at the first decimal point. -/
def splitAtDot : List Char → List Char × Option (List Char)
  | [] => ([], none)
  | c :: rest =>
    if c = '.' then ([], some rest)
    else
      let (a, b) := splitAtDot rest
      (c :: a, b)

/-- `rust_decimal` `Decimal::from_str`: an optional sign, ASCII digits with
optional underscore separators and at most one decimal point.  An input whose
mantissa needs 96 bits or more, or whose fractional part is longer than 28
digits, is rejected here; the library rounds such inputs into range instead, a
regime no theorem below depends on. -/
def Decimal.fromStr (str : String) : Option Decimal :=
  let cs := str.toList
  let neg : Bool :=
    match cs with
    | '-' :: _ => true
    | _ => false
  let rest : List Char :=
    match cs with
    | '-' :: r => r
    | '+' :: r => r
    | _ => cs
  let body := rest.filter (fun c => c ≠ '_')
  let ip := (splitAtDot body).1
  let fp := (splitAtDot body).2.getD []
  if (ip ++ fp) ≠ [] ∧ (ip ++ fp).all Char.isDigit ∧
      digitsVal (ip ++ fp) < 2 ^ 96 ∧ fp.length ≤ 28 then
    some ⟨neg, digitsVal (ip ++ fp), fp.length⟩
  else none

/-- Bring a raw product mantissa and scale back into `Decimal` range
(`m < 2 ^ 96`, `s ≤ 28`) by dropping fractional digits with round-half-up, as
`rust_decimal` multiplication does; `none` when even scale zero cannot hold the
integer part (the `Mul` impl then panics). -/
def rescale : Nat → Nat → Option (Nat × Nat)
  | m, 0 => if m < 2 ^ 96 then some (m, 0) else none
  | m, s + 1 =>
    if m < 2 ^ 96 ∧ s + 1 ≤ 28 then some (m, s + 1)
    else rescale (m / 10 + (if 5 ≤ m % 10 then 1 else 0)) s

/-- `rust_decimal` multiplication (the `Mul` impl used at app.rs:176): exact
product of mantissas, sum of scales, xor of signs, then `rescale`; overflow
panics with "Multiplication overflowed", modeled as an error. -/
def Decimal.mul (a b : Decimal) : Except String Decimal :=
  match rescale (a.m * b.m) (a.s + b.s) with
  | some (m, s) => .ok ⟨Bool.xor a.neg b.neg, m, s⟩
  | none => .error "panic: Multiplication overflowed"

/-- `rust_decimal` `ToPrimitive::to_u64`: `None` for a sign-negative value,
otherwise the integer part (fraction truncated) when it fits in 64 bits. -/
def Decimal.toU64 (x : Decimal) : Option Nat :=
  if x.neg then none
  else
    let t := x.m / 10 ^ x.s
    if t < 2 ^ 64 then some t else none

/-- `10_u64.pow(decimals)` (app.rs:175): `u64` arithmetic overflow for
`decimals ≥ 20` panics, modeled as an error. -/
def pow10u64 (d : Nat) : Except String Nat :=
  if 10 ^ d < 2 ^ 64 then .ok (10 ^ d) else .error "panic: attempt to multiply with overflow"

/-- The error message of app.rs:177-180. -/
def overflowMsg (d : Nat) : String :=
  "Scaled price is too large to fit in u64 (decimals: " ++ Nat.repr d ++ ")"

/-- The string-or-number dispatch of `process_data` (app.rs:152-172): a JSON
string is parsed as a `Decimal`, a JSON number goes through its canonical text
(`Value::to_string`) into the same parse.  The `rust_decimal` parse-error
detail appended by the source is abbreviated to "Invalid decimal". -/
def scalarToDecimal (v : Json) (fieldPath : String) : Except String Decimal :=
  match v with
  | .str s =>
    match Decimal.fromStr s with
    | some x => .ok x
    | none =>
      .error ("Price field \x27" ++ fieldPath ++ "\x27 is not a valid number string: Invalid decimal")
  | .num s =>
    match Decimal.fromStr s with
    | some x => .ok x
    | none =>
      .error ("Price field \x27" ++ fieldPath ++ "\x27 is not a valid number: Invalid decimal")
  | _ =>
    .error ("Price field \x27" ++ fieldPath ++ "\x27 is neither a string nor a number")

/-- The fixed-point conversion of `process_data` (app.rs:174-181): multiply by
`Decimal::from(10_u64.pow(d))` and convert with `to_u64`, erroring when the
conversion yields `None`. -/
def scalePrice (x : Decimal) (d : Nat) : Except String Nat :=
  match pow10u64 d with
  | .error e => .error e
  | .ok sf =>
    match Decimal.mul x ⟨false, sf, 0⟩ with
    | .error e => .error e
    | .ok p =>
      match p.toU64 with
      | some n => .ok n
      | none => .error (overflowMsg d)

/-- The whole normalization slice of `process_data` (app.rs:152-181). -/
def normalizeValue (v : Json) (fieldPath : String) (d : Nat) : Except String Nat :=
  match scalarToDecimal v fieldPath with
  | .error e => .error e
  | .ok x => scalePrice x d

/-- The `PriceFeed` descriptor of types.rs. -/
structure PriceFeed where
  oracle_id : String
  is_valid : Bool
  api_key : Option String
  api_key_config : Option String
  underlying_url : String
  response_field : String
  live_url : String
deriving DecidableEq

/-- The response-validation logic of `SuiClientWrapper::fetch_price_feed`
(sui.rs:62-148), as a function of the already parsed RPC response body.  The
source interpolates the rendered error value into the "Sui RPC error" message;
the rendering is omitted here. -/
def fetch_price_feed (packageId : String) (body : Json) : Except String PriceFeed :=
  match body.get "error" with
  | some _ => .error "Sui RPC error"
  | none =>
  match body.get "result" with
  | none => .error "No result in RPC response"
  | some result =>
  match result.get "data" with
  | none => .error "No data in result"
  | some data =>
  match (data.get "type").bind Json.asStr with
  | none => .error "Missing object type"
  | some objectType =>
  if objectType ≠ packageId ++ "::oracle_builder::PriceFeed" then
    .error ("Expected PriceFeed type " ++ (packageId ++ "::oracle_builder::PriceFeed")
      ++ ", got " ++ objectType)
  else
  match data.get "content" with
  | none => .error "Missing content"
  | some content =>
  match content.get "fields" with
  | none => .error "Missing fields in content"
  | some fields =>
  match (fields.get "oracle_id").bind Json.asStr with
  | none => .error "Missing or invalid oracle_id field"
  | some oracleId =>
  match (fields.get "is_valid").bind Json.asBool with
  | none => .error "Missing or invalid is_valid field"
  | some isValid =>
  match (fields.get "underlying_url").bind Json.asStr with
  | none => .error "Missing or invalid underlying_url field"
  | some underlyingUrl =>
  match (fields.get "response_field").bind Json.asStr with
  | none => .error "Missing or invalid response_field field"
  | some responseField =>
  match (fields.get "live_url").bind Json.asStr with
  | none => .error "Missing or invalid live_url field"
  | some liveUrl =>
    .ok { oracle_id := oracleId, is_valid := isValid,
          api_key := (fields.get "api_key").bind Json.asStr,
          api_key_config := (fields.get "api_key_config").bind Json.asStr,
          underlying_url := underlyingUrl, response_field := responseField,
          live_url := liveUrl }

/-- The authentication-header selection of `process_data` (app.rs:117-132):
when both credential fields are present, an unsupported scheme is a hard error
before any request is built; otherwise at most one header is attached. -/
def authHeader (feed : PriceFeed) : Except String (Option (String × String)) :=
  match feed.api_key, feed.api_key_config with
  | some k, some c =>
    if c = "Bearer" then .ok (some ("Authorization", "Bearer " ++ k))
    else if c = "x-api-key" then .ok (some ("x-api-key", k))
    else .error ("Unsupported api_key_config: " ++ c)
  | _, _ => .ok none

/-- The inner payload `PriceFeedResponse` of app.rs (u64 fields as `Nat`). -/
structure PriceFeedResponse where
  oracle_id : String
  price_feed_id : String
  price : Nat
  timestamp_ms : Nat
deriving DecidableEq

/-- Modelled from the spec: the `IntentMessage` of `crate::common` (not under
src/) couples a scope discriminant, the capture timestamp and the payload
(spec section 4.5). -/
structure IntentMessage where
  intent : Nat
  timestamp_ms : Nat
  data : PriceFeedResponse
deriving DecidableEq

/-- Modelled from the spec: the `IntentScope::PriceFeed` discriminant of
`crate::common`; its concrete value is immaterial to the theorems below. -/
def priceFeedScope : Nat := 0

/-- `process_data` (app.rs:95-199) with its effects made explicit: the already
resolved RPC fetch, the external HTTP GET as a function of the URL and auth
header (outer `Except`: transport failure of `send`, inner: JSON parse of the
body), and the clock reading.  The result is paired with the number of
external GET requests issued (0 or 1).  `to_signed_response` of
`crate::common` (not under src/) is modelled from the spec as returning the
`IntentMessage` built from the payload, the single timestamp and the scope. -/
def processData (feedRes : Except String PriceFeed)
    (http : String → Option (String × String) → Except String (Except String Json))
    (nowRes : Except String Nat) (priceDecimals : Nat) (requestFeedId : String) :
    Except String IntentMessage × Nat :=
  match feedRes with
  | .error e => (.error ("Failed to fetch price feed: " ++ e), 0)
  | .ok feed =>
    if ¬ feed.is_valid then (.error "Price feed is not valid", 0)
    else
      match authHeader feed with
      | .error e => (.error e, 0)
      | .ok hdr =>
        match http feed.underlying_url hdr with
        | .error e => (.error ("Failed to get price feed response: " ++ e), 1)
        | .ok body =>
          match body with
          | .error e => (.error ("Failed to parse price feed response: " ++ e), 1)
          | .ok json =>
            match extract_field_from_json json feed.response_field with
            | .error e =>
              (.error ("Failed to extract price from field \x27" ++ feed.response_field
                ++ "\x27: " ++ e), 1)
            | .ok v =>
              match normalizeValue v feed.response_field priceDecimals with
              | .error e => (.error e, 1)
              | .ok price =>
                match nowRes with
                | .error e => (.error ("Failed to get current timestamp: " ++ e), 1)
                | .ok now =>
                  (.ok { intent := priceFeedScope, timestamp_ms := now,
                         data := { oracle_id := feed.oracle_id,
                                   price_feed_id := requestFeedId,
                                   price := price, timestamp_ms := now } }, 1)

/-- Modelled from the spec: fixed-width little-endian byte decomposition used
for u64 fields by the canonical (BCS-style) encoding of spec section 4.5;
`crate::common` is not under src/. -/
def leBytes : Nat → Nat → List Nat
  | 0, _ => []
  | k + 1, n => n % 256 :: leBytes k (n / 256)

/-- Modelled from the spec: the 8-byte little-endian encoding of a u64. -/
def u64le (n : Nat) : List Nat := leBytes 8 n

/-- Modelled from the spec: ULEB128, the length and enum-discriminant prefix
encoding of the canonical serialization of spec section 4.5. -/
def uleb (n : Nat) : List Nat :=
  if n < 128 then [n]
  else (n % 128 + 128) :: uleb (n / 128)
decreasing_by exact Nat.div_lt_self (by omega) (by omega)

/-- Modelled from the spec: the signed payload with its string fields taken as
their UTF-8 byte sequences, the form in which they enter the canonical
serialization (spec section 4.5). -/
structure PayloadBytes where
  oracleId : List Nat
  priceFeedId : List Nat
  price : Nat
  timestampMs : Nat
deriving DecidableEq

/-- Modelled from the spec: canonical length-prefixed serialization of the
payload — two length-prefixed strings followed by two u64 fields. -/
def serPayload (p : PayloadBytes) : List Nat :=
  uleb p.oracleId.length ++ p.oracleId ++ uleb p.priceFeedId.length ++ p.priceFeedId
    ++ u64le p.price ++ u64le p.timestampMs

/-- Modelled from the spec: the byte string signed by `to_signed_response` of
`crate::common` — the scope discriminant, then the u64 timestamp, then the
payload (spec sections 4.5 and 6). -/
def signingBytes (scope : Nat) (timestampMs : Nat) (p : PayloadBytes) : List Nat :=
  uleb scope ++ u64le timestampMs ++ serPayload p

/-- The document `{"a":{"b":[{"c":5}]}}` of the specification's extraction
example. -/
def demoC1 : Json := .obj [("a", .obj [("b", .arr [.obj [("c", .num "5")]])])]

/-- A well-formed `sui_getObject` response body carrying a PriceFeed object of
the package given as argument. -/
def demoRpcBody (pkg : String) : Json :=
  .obj [("result", .obj [("data", .obj [
    ("type", .str (pkg ++ "::oracle_builder::PriceFeed")),
    ("content", .obj [("fields", .obj [
      ("oracle_id", .str "oracle-1"),
      ("is_valid", .bool true),
      ("underlying_url", .str "https://example.com/price"),
      ("response_field", .str "price"),
      ("live_url", .str "https://example.com/live")])])])])]

/-- A concrete valid descriptor without credentials, used by witnesses. -/
def feedW : PriceFeed :=
  { oracle_id := "o", is_valid := true, api_key := none, api_key_config := none,
    underlying_url := "u", response_field := "price", live_url := "l" }

/-- A stub external fetcher that returns the given body for every request. -/
def httpW (body : Json) :
    String → Option (String × String) → Except String (Except String Json) :=
  fun _ _ => .ok (.ok body)

/-- External response `{"price":"100.5"}`. -/
def bodyW : Json := .obj [("price", .str "100.5")]

/-- External response `{"price":"-5"}`. -/
def bodyNegW : Json := .obj [("price", .str "-5")]

section Lemmas

lemma rescale_eq_of_fits {m s : Nat} (hm : m < 2 ^ 96) (hs : s ≤ 28) :
    rescale m s = some (m, s) := by
  cases s with
  | zero => simp only [rescale, if_pos hm]
  | succ t => simp only [rescale, if_pos (⟨hm, hs⟩ : m < 2 ^ 96 ∧ t + 1 ≤ 28)]

lemma rescale_le {s : Nat} : ∀ {m m' s' : Nat}, rescale m s = some (m', s') →
    s' ≤ s ∧ m / 10 ^ (s - s') ≤ m' := by
  induction s with
  | zero =>
    intro m m' s' h
    simp only [rescale] at h
    split at h
    · cases h; simp
    · cases h
  | succ t ih =>
    intro m m' s' h
    simp only [rescale] at h
    split at h
    · cases h; simp
    · obtain ⟨h1, h2⟩ := ih h
      refine ⟨Nat.le_succ_of_le h1, ?_⟩
      have he : t + 1 - s' = (t - s') + 1 := by omega
      have hd : m / 10 ^ (t + 1 - s') = m / 10 / 10 ^ (t - s') := by
        rw [he, pow_succ, Nat.div_div_eq_div_mul, Nat.mul_comm]
      rw [hd]
      exact le_trans (Nat.div_le_div_right (Nat.le_add_right _ _)) h2

lemma fromStr_valid {str : String} {x : Decimal} (h : Decimal.fromStr str = some x) :
    x.Valid := by
  unfold Decimal.fromStr at h
  dsimp only at h
  split at h
  · rename_i hcond
    cases h
    exact ⟨hcond.2.2.1, hcond.2.2.2⟩
  · cases h

lemma scalarToDecimal_valid {v : Json} {path : String} {x : Decimal}
    (h : scalarToDecimal v path = .ok x) : x.Valid := by
  unfold scalarToDecimal at h
  split at h
  · split at h
    · rename_i heq; cases h; exact fromStr_valid heq
    · cases h
  · split at h
    · rename_i heq; cases h; exact fromStr_valid heq
    · cases h
  · cases h

/-- Characterization of `scalePrice` when the scale factor is constructible:
multiply mantissas, rescale, then convert, with the sign checked first. -/
lemma scalePrice_def {x : Decimal} {d : Nat} (hd : 10 ^ d < 2 ^ 64) :
    scalePrice x d =
      match rescale (x.m * 10 ^ d) x.s with
      | none => .error "panic: Multiplication overflowed"
      | some (m, s) =>
        if x.neg = true then .error (overflowMsg d)
        else if m / 10 ^ s < 2 ^ 64 then .ok (m / 10 ^ s)
        else .error (overflowMsg d) := by
  unfold scalePrice pow10u64 Decimal.mul Decimal.toU64
  rw [if_pos hd]
  dsimp only
  rw [Nat.add_zero]
  cases hr : rescale (x.m * 10 ^ d) x.s with
  | none => rfl
  | some p =>
    obtain ⟨m, s⟩ := p
    dsimp only
    rw [Bool.xor_false]
    by_cases hn : x.neg = true
    · rw [if_pos hn, if_pos hn]
    · rw [if_neg hn, if_neg hn]
      split
      · rename_i n heq
        split at heq
        · cases heq; rw [if_pos (by assumption)]
        · cases heq
      · rename_i heq
        split at heq
        · cases heq
        · rw [if_neg (by assumption)]

/-- Exact-regime characterization of `scalePrice` for a nonnegative input:
when the scaled mantissa stays below `2 ^ 96` the product is exact and the
result is the truncated quotient, bounds-checked against `2 ^ 64`. -/
lemma scalePrice_exact {x : Decimal} {d : Nat} (hm : x.m * 10 ^ d < 2 ^ 96)
    (hs : x.s ≤ 28) (hd : 10 ^ d < 2 ^ 64) (hneg : x.neg = false) :
    scalePrice x d =
      if x.m * 10 ^ d / 10 ^ x.s < 2 ^ 64 then .ok (x.m * 10 ^ d / 10 ^ x.s)
      else .error (overflowMsg d) := by
  rw [scalePrice_def hd, rescale_eq_of_fits hm hs]
  dsimp only
  rw [hneg, if_neg Bool.false_ne_true]

/-- `scalePrice` on a sign-negative value in the exact regime: `to_u64`
returns `None` and the source reports the u64-overflow error. -/
lemma scalePrice_neg_exact {x : Decimal} {d : Nat} (hm : x.m * 10 ^ d < 2 ^ 96)
    (hs : x.s ≤ 28) (hd : 10 ^ d < 2 ^ 64) (hneg : x.neg = true) :
    scalePrice x d = .error (overflowMsg d) := by
  rw [scalePrice_def hd, rescale_eq_of_fits hm hs]
  dsimp only
  rw [if_pos hneg]

/-- `scalePrice` on a sign-negative value never succeeds, whatever the scale
or magnitude. -/
lemma scalePrice_neg_err {x : Decimal} {d : Nat} (hneg : x.neg = true) :
    ∃ e, scalePrice x d = .error e := by
  by_cases hd : 10 ^ d < 2 ^ 64
  · rw [scalePrice_def hd]
    cases hr : rescale (x.m * 10 ^ d) x.s with
    | none => exact ⟨_, rfl⟩
    | some p =>
      obtain ⟨m, s⟩ := p
      dsimp only
      rw [if_pos hneg]
      exact ⟨_, rfl⟩
  · unfold scalePrice pow10u64
    rw [if_neg hd]
    exact ⟨_, rfl⟩

/-- Whenever the (nonnegative) mathematical product `x * 10 ^ d` is at least
`2 ^ 64`, `scalePrice` fails: with the u64-overflow error when the product is
representable, with an arithmetic-overflow panic otherwise. -/
lemma scalePrice_overflow {x : Decimal} {d : Nat}
    (hneg : x.neg = false) (hbig : 2 ^ 64 * 10 ^ x.s ≤ x.m * 10 ^ d) :
    ∃ e, scalePrice x d = .error e ∧
      (e = overflowMsg d ∨ e = "panic: Multiplication overflowed" ∨
        e = "panic: attempt to multiply with overflow") := by
  by_cases hd : 10 ^ d < 2 ^ 64
  · rw [scalePrice_def hd]
    cases hr : rescale (x.m * 10 ^ d) x.s with
    | none => exact ⟨_, rfl, Or.inr (Or.inl rfl)⟩
    | some p =>
      obtain ⟨m', s'⟩ := p
      obtain ⟨hs', hm'⟩ := rescale_le hr
      dsimp only
      rw [hneg, if_neg Bool.false_ne_true]
      have hq : 2 ^ 64 ≤ m' / 10 ^ s' := by
        have h1 : 2 ^ 64 ≤ x.m * 10 ^ d / 10 ^ x.s :=
          (Nat.le_div_iff_mul_le (by positivity)).mpr hbig
        have h3 : x.m * 10 ^ d / 10 ^ (x.s - s') / 10 ^ s' ≤ m' / 10 ^ s' :=
          Nat.div_le_div_right hm'
        rw [Nat.div_div_eq_div_mul, ← pow_add] at h3
        have hss : x.s - s' + s' = x.s := by omega
        rw [hss] at h3
        exact le_trans h1 h3
      rw [if_neg (by omega)]
      exact ⟨_, rfl, Or.inl rfl⟩
  · unfold scalePrice pow10u64
    rw [if_neg hd]
    exact ⟨_, rfl, Or.inr (Or.inr rfl)⟩

/-- Two representations of the same nonnegative decimal value truncate to the
same scaled integer. -/
lemma trunc_cross {m1 s1 m2 s2 d : Nat} (hcross : m1 * 10 ^ s2 = m2 * 10 ^ s1) :
    m1 * 10 ^ d / 10 ^ s1 = m2 * 10 ^ d / 10 ^ s2 := by
  have h1 : m1 * 10 ^ d / 10 ^ s1 = 10 ^ s2 * (m1 * 10 ^ d) / (10 ^ s2 * 10 ^ s1) := by
    rw [Nat.mul_div_mul_left _ _ (by positivity)]
  have h2 : 10 ^ s2 * (m1 * 10 ^ d) = 10 ^ s1 * (m2 * 10 ^ d) := by
    calc 10 ^ s2 * (m1 * 10 ^ d) = (m1 * 10 ^ s2) * 10 ^ d := by ring
    _ = (m2 * 10 ^ s1) * 10 ^ d := by rw [hcross]
    _ = 10 ^ s1 * (m2 * 10 ^ d) := by ring
  rw [h1, h2, Nat.mul_comm (10 ^ s2) (10 ^ s1), Nat.mul_div_mul_left _ _ (by positivity)]

lemma leBytes_length (k : Nat) : ∀ n, (leBytes k n).length = k := by
  induction k with
  | zero => intro n; rfl
  | succ t ih => intro n; simp [leBytes, ih]

lemma leBytes_inj : ∀ {k a b : Nat}, a < 256 ^ k → b < 256 ^ k →
    leBytes k a = leBytes k b → a = b := by
  intro k
  induction k with
  | zero =>
    intro a b ha hb _
    rw [pow_zero] at ha hb
    omega
  | succ t ih =>
    intro a b ha hb h
    simp only [leBytes, List.cons.injEq] at h
    obtain ⟨h1, h2⟩ := h
    have ha2 : a / 256 < 256 ^ t := by
      rw [Nat.div_lt_iff_lt_mul (by omega)]
      calc a < 256 ^ (t + 1) := ha
      _ = 256 ^ t * 256 := by rw [pow_succ]
    have hb2 : b / 256 < 256 ^ t := by
      rw [Nat.div_lt_iff_lt_mul (by omega)]
      calc b < 256 ^ (t + 1) := hb
      _ = 256 ^ t * 256 := by rw [pow_succ]
    have h3 := ih ha2 hb2 h2
    omega

lemma u64le_length (n : Nat) : (u64le n).length = 8 := leBytes_length 8 n

lemma u64le_inj {a b : Nat} (ha : a < 2 ^ 64) (hb : b < 2 ^ 64)
    (h : u64le a = u64le b) : a = b := by
  have h256 : (2 : Nat) ^ 64 = 256 ^ 8 := by norm_num
  exact leBytes_inj (h256 ▸ ha) (h256 ▸ hb) h

/-- ULEB128 is a prefix code: equal concatenations with arbitrary tails force
equal values and equal tails. -/
lemma uleb_append_inj : ∀ {m n : Nat} {r t : List Nat},
    uleb m ++ r = uleb n ++ t → m = n ∧ r = t := by
  intro m
  induction m using Nat.strong_induction_on with
  | _ m ih =>
    intro n r t h
    have hu : ∀ q : Nat,
        uleb q = if q < 128 then [q] else (q % 128 + 128) :: uleb (q / 128) := by
      intro q
      rw [uleb]
    rw [hu m, hu n] at h
    by_cases hm : m < 128 <;> by_cases hn : n < 128
    · rw [if_pos hm, if_pos hn] at h
      simp only [List.cons_append, List.nil_append, List.cons.injEq] at h
      exact h
    · rw [if_pos hm, if_neg hn] at h
      simp only [List.cons_append, List.nil_append, List.cons.injEq] at h
      omega
    · rw [if_neg hm, if_pos hn] at h
      simp only [List.cons_append, List.nil_append, List.cons.injEq] at h
      omega
    · rw [if_neg hm, if_neg hn] at h
      simp only [List.cons_append, List.cons.injEq] at h
      obtain ⟨h1, h2⟩ := h
      obtain ⟨h3, h4⟩ := ih (m / 128) (Nat.div_lt_self (by omega) (by omega)) h2
      exact ⟨by omega, h4⟩

/-- A length-prefixed chunk is a prefix code. -/
lemma uleb_chunk_inj {l1 l2 r1 r2 : List Nat}
    (h : uleb l1.length ++ l1 ++ r1 = uleb l2.length ++ l2 ++ r2) :
    l1 = l2 ∧ r1 = r2 := by
  rw [List.append_assoc, List.append_assoc] at h
  obtain ⟨hlen, h2⟩ := uleb_append_inj h
  exact List.append_inj h2 hlen

/-- The canonical payload serialization is injective on u64-bounded payloads. -/
lemma serPayload_inj {p1 p2 : PayloadBytes}
    (hp1 : p1.price < 2 ^ 64 ∧ p1.timestampMs < 2 ^ 64)
    (hp2 : p2.price < 2 ^ 64 ∧ p2.timestampMs < 2 ^ 64)
    (h : serPayload p1 = serPayload p2) : p1 = p2 := by
  unfold serPayload at h
  simp only [List.append_assoc] at h
  rw [← List.append_assoc (uleb p1.oracleId.length),
      ← List.append_assoc (uleb p2.oracleId.length)] at h
  obtain ⟨ho, h⟩ := uleb_chunk_inj h
  rw [← List.append_assoc (uleb p1.priceFeedId.length),
      ← List.append_assoc (uleb p2.priceFeedId.length)] at h
  obtain ⟨hf, h⟩ := uleb_chunk_inj h
  obtain ⟨hpr, hts⟩ := List.append_inj h (by rw [u64le_length, u64le_length])
  obtain ⟨o1, f1, pr1, ts1⟩ := p1
  obtain ⟨o2, f2, pr2, ts2⟩ := p2
  simp only at ho hf hpr hts hp1 hp2
  simp only [PayloadBytes.mk.injEq]
  exact ⟨ho, hf, u64le_inj hp1.1 hp2.1 hpr, u64le_inj hp1.2 hp2.2 hts⟩

/-- Reduction of `process_data` through a successful fetch, validity check,
auth-header selection and external request, down to extraction. -/
lemma processData_run {feed : PriceFeed}
    {http : String → Option (String × String) → Except String (Except String Json)}
    {json : Json} {hdr : Option (String × String)}
    (hvalid : feed.is_valid = true) (hauth : authHeader feed = .ok hdr)
    (hhttp : http feed.underlying_url hdr = .ok (.ok json))
    (nowRes : Except String Nat) (d : Nat) (rid : String) :
    processData (.ok feed) http nowRes d rid =
      match extract_field_from_json json feed.response_field with
      | .error e => (.error ("Failed to extract price from field \x27"
          ++ feed.response_field ++ "\x27: " ++ e), 1)
      | .ok v =>
        match normalizeValue v feed.response_field d with
        | .error e => (.error e, 1)
        | .ok price =>
          match nowRes with
          | .error e => (.error ("Failed to get current timestamp: " ++ e), 1)
          | .ok now =>
            (.ok (IntentMessage.mk priceFeedScope now
              (PriceFeedResponse.mk feed.oracle_id rid price now)), 1) := by
  unfold processData
  dsimp only
  rw [hvalid]
  simp only [not_true_eq_false, if_false]
  rw [hauth]
  dsimp only
  rw [hhttp]

lemma extract_price_pos :
    extract_field_from_json bodyW "price" = .ok (.str "100.5") := by
  show extractAux bodyW "price".toList = _
  rw [extractAux]; rfl

lemma extract_price_negval :
    extract_field_from_json bodyNegW "price" = .ok (.str "-5") := by
  show extractAux bodyNegW "price".toList = _
  rw [extractAux]; rfl

end Lemmas

section Claims

/-- C1: the claim fails on the code.  On `{"a":{"b":[{"c":5}]}}` the path
`"a.b[0].c"` does not resolve the dot-separated field segments before the
index: because a `[` occurs somewhere in the remaining path, the code treats
the whole prefix `"a.b"` as a single member key, whose lookup fails — while
the purely dotted path `"a.b"` resolves field by field as the grammar
prescribes.  The claimed result `5` is never produced. -/
theorem claim1_dotted_field_before_bracket :
    extract_field_from_json demoC1 "a.b[0].c" = .error "Field \x27a.b\x27 not found" ∧
    extract_field_from_json demoC1 "a.b" = .ok (.arr [.obj [("c", Json.num "5")]]) := by
  constructor
  · show extractAux demoC1 "a.b[0].c".toList = _
    rw [extractAux]; rfl
  · show extractAux demoC1 "a.b".toList = _
    have s1 : extractAux demoC1 "a.b".toList
        = extractAux (.obj [("b", .arr [.obj [("c", Json.num "5")]])]) "b".toList := by
      rw [extractAux]; rfl
    rw [s1, extractAux]; rfl

/-- C2, counterexample: normalizing the extracted value `0.019` with 2
configured decimals yields `1`, but `round(0.019 * 10^2) = round(1.9) = 2`:
the fractional part is silently truncated, not rounded. -/
theorem claim2_price_not_rounded_counterexample :
    Decimal.fromStr "0.019" = some ⟨false, 19, 3⟩ ∧
    normalizeValue (.str "0.019") "price" 2 = .ok 1 ∧
    round ((19 : ℚ) / 10 ^ 3 * 10 ^ 2) = 2 ∧ (1 : ℤ) ≠ 2 := by
  refine ⟨rfl, rfl, ?_, by decide⟩
  norm_num [round_eq]

/-- C2 (amended): for every successful normalization whose scaled mantissa
stays within the 96-bit capacity of `Decimal`, the produced price is
`raw_price * 10 ^ decimals` truncated toward zero (the fraction is discarded,
not rounded); overflow remains a hard failure, never wraparound. -/
theorem claim2_price_truncated {str path : String} {x : Decimal} {d p : Nat}
    (hx : Decimal.fromStr str = some x) (hm : x.m * 10 ^ d < 2 ^ 96)
    (h : normalizeValue (.str str) path d = .ok p) :
    p = x.m * 10 ^ d / 10 ^ x.s := by
  have hval := fromStr_valid hx
  unfold normalizeValue scalarToDecimal at h
  dsimp only at h
  rw [hx] at h
  dsimp only at h
  by_cases hd : 10 ^ d < 2 ^ 64
  · by_cases hneg : x.neg = true
    · rw [scalePrice_neg_exact hm hval.2 hd hneg] at h
      exact Except.noConfusion h
    · rw [scalePrice_exact hm hval.2 hd (Bool.not_eq_true _ |>.mp hneg)] at h
      split at h
      · cases h; rfl
      · exact Except.noConfusion h
  · unfold scalePrice pow10u64 at h
    rw [if_neg hd] at h
    exact Except.noConfusion h

/-- C2 witness: the amended statement at the concrete counterexample input. -/
theorem claim2_price_truncated_witness : (1 : Nat) = 19 * 10 ^ 2 / 10 ^ 3 :=
  @claim2_price_truncated "0.019" "price" ⟨false, 19, 3⟩ 2 1
    rfl (by norm_num) rfl

/-- C3, counterexample: for the extracted value `x = 1844674407370955161.55`
and one configured decimal, `x * 10^1 = 18446744073709551615.5` exceeds
`2^64 - 1`, yet normalization succeeds (with the truncated value `2^64 - 1`)
instead of failing with an overflow error. -/
theorem claim3_overflow_band_counterexample :
    Decimal.fromStr "1844674407370955161.55" = some ⟨false, 184467440737095516155, 2⟩ ∧
    normalizeValue (.str "1844674407370955161.55") "price" 1 = .ok (2 ^ 64 - 1) ∧
    ((184467440737095516155 : ℚ) / 10 ^ 2) * 10 ^ 1 > (2 : ℚ) ^ 64 - 1 := by
  refine ⟨rfl, rfl, by norm_num⟩

/-- C3 (amended): normalization fails whenever the extracted nonnegative value
satisfies `x * 10 ^ d ≥ 2 ^ 64` (equivalently, whenever the truncated product
exceeds `2 ^ 64 - 1`): with the u64-overflow error when the product is
representable in a `Decimal`, and with an arithmetic-overflow panic beyond
that; the result never wraps around into a small u64.  (In the band
`2 ^ 64 - 1 < x * 10 ^ d < 2 ^ 64` the source truncates and succeeds, refuting
the original "exceeds `2 ^ 64 - 1`" bound.) -/
theorem claim3_overflow_fails {v : Json} {path : String} {x : Decimal} {d : Nat}
    (hx : scalarToDecimal v path = .ok x) (hneg : x.neg = false)
    (hbig : 2 ^ 64 * 10 ^ x.s ≤ x.m * 10 ^ d) :
    ∃ e, normalizeValue v path d = .error e ∧
      (e = overflowMsg d ∨ e = "panic: Multiplication overflowed" ∨
        e = "panic: attempt to multiply with overflow") := by
  obtain ⟨e, he, hor⟩ := scalePrice_overflow hneg hbig
  refine ⟨e, ?_, hor⟩
  unfold normalizeValue
  rw [hx]
  exact he

/-- C3 witness: the amended statement at the concrete input `2 ^ 64` with zero
configured decimals. -/
theorem claim3_overflow_fails_witness :
    ∃ e, normalizeValue (.str "18446744073709551616") "price" 0 = .error e ∧
      (e = overflowMsg 0 ∨ e = "panic: Multiplication overflowed" ∨
        e = "panic: attempt to multiply with overflow") :=
  claim3_overflow_fails (x := ⟨false, 18446744073709551616, 0⟩) rfl rfl (by norm_num)

/-- C5: a JSON string and a JSON number denoting the same decimal value
normalize to the same fixed-point integer: concretely both `"100.5"` forms
give `10050000000` at 8 decimals, and in general any two parses denoting the
same nonnegative value (cross-multiplication equality), each within the
96-bit exact regime, agree. -/
theorem claim5_string_number_agree :
    (normalizeValue (.str "100.5") "price" 8 = .ok 10050000000 ∧
     normalizeValue (.num "100.5") "price" 8 = .ok 10050000000) ∧
    ∀ (s1 s2 path : String) (x1 x2 : Decimal) (d : Nat),
      Decimal.fromStr s1 = some x1 → Decimal.fromStr s2 = some x2 →
      x1.neg = false → x2.neg = false →
      x1.m * 10 ^ x2.s = x2.m * 10 ^ x1.s →
      x1.m * 10 ^ d < 2 ^ 96 → x2.m * 10 ^ d < 2 ^ 96 →
      normalizeValue (.str s1) path d = normalizeValue (.num s2) path d := by
  refine ⟨⟨rfl, rfl⟩, ?_⟩
  intro s1 s2 path x1 x2 d h1 h2 hn1 hn2 hcross hb1 hb2
  have hv1 := fromStr_valid h1
  have hv2 := fromStr_valid h2
  unfold normalizeValue scalarToDecimal
  dsimp only
  rw [h1, h2]
  dsimp only
  by_cases hd : 10 ^ d < 2 ^ 64
  · rw [scalePrice_exact hb1 hv1.2 hd hn1, scalePrice_exact hb2 hv2.2 hd hn2,
      trunc_cross hcross]
  · unfold scalePrice pow10u64
    rw [if_neg hd]

/-- C5 witness: `"100.50"` as a JSON string and `"100.5"` as a JSON number
denote the same value and normalize identically. -/
theorem claim5_string_number_agree_witness :
    normalizeValue (.str "100.50") "price" 8 = normalizeValue (.num "100.5") "price" 8 :=
  claim5_string_number_agree.2 "100.50" "100.5" "price" ⟨false, 10050, 2⟩ ⟨false, 1005, 1⟩ 8
    rfl rfl rfl rfl (by norm_num) (by norm_num) (by norm_num)

/-- C4: a descriptor fetched with `is_valid = false` makes the pipeline fail
with the validity error before any external request: the external-call count
of the run is 0 and the fetcher function is never invoked. -/
theorem claim4_invalid_feed_no_fetch (feed : PriceFeed)
    (http : String → Option (String × String) → Except String (Except String Json))
    (nowRes : Except String Nat) (d : Nat) (rid : String)
    (hvalid : feed.is_valid = false) :
    processData (.ok feed) http nowRes d rid = (.error "Price feed is not valid", 0) := by
  unfold processData
  dsimp only
  rw [hvalid]
  rfl

/-- C4 witness: the theorem applied to a concrete invalid descriptor. -/
theorem claim4_invalid_feed_no_fetch_witness :
    processData
      (.ok { oracle_id := "o", is_valid := false, api_key := none, api_key_config := none,
             underlying_url := "u", response_field := "price", live_url := "l" })
      (fun _ _ => .error "unreachable") (.ok 7) 8 "rid"
      = (.error "Price feed is not valid", 0) :=
  claim4_invalid_feed_no_fetch _ _ _ _ _ rfl

/-- C6: with both credential fields present and a scheme that is neither
"Bearer" nor "x-api-key", a valid descriptor fails with the error naming the
unsupported scheme and the external-call count of the run is 0. -/
theorem claim6_unsupported_scheme (feed : PriceFeed)
    (http : String → Option (String × String) → Except String (Except String Json))
    (nowRes : Except String Nat) (d : Nat) (rid : String) (k c : String)
    (hk : feed.api_key = some k) (hc : feed.api_key_config = some c)
    (hb : c ≠ "Bearer") (hx : c ≠ "x-api-key") (hvalid : feed.is_valid = true) :
    processData (.ok feed) http nowRes d rid =
      (.error ("Unsupported api_key_config: " ++ c), 0) := by
  have haux : authHeader feed = .error ("Unsupported api_key_config: " ++ c) := by
    unfold authHeader
    rw [hk, hc]
    dsimp only
    rw [if_neg hb, if_neg hx]
  unfold processData
  dsimp only
  rw [hvalid]
  simp only [not_true_eq_false, if_false, haux]

/-- C6 witness: the theorem applied to a concrete descriptor configured with
the unsupported scheme "Unsupported". -/
theorem claim6_unsupported_scheme_witness :
    processData
      (.ok { oracle_id := "o", is_valid := true, api_key := some "k",
             api_key_config := some "Unsupported",
             underlying_url := "u", response_field := "price", live_url := "l" })
      (fun _ _ => .error "unreachable") (.ok 7) 8 "rid"
      = (.error "Unsupported api_key_config: Unsupported", 0) :=
  claim6_unsupported_scheme _ _ _ _ _ "k" "Unsupported" rfl rfl
    (by decide) (by decide) rfl

/-- C7: the chain-object fetch succeeds only when `result.data.type` is
present and equals `<package>::oracle_builder::PriceFeed` exactly; in
particular the same type suffix under a different package id is rejected with
an error and no descriptor. -/
theorem claim7_type_check :
    (∀ (pkg : String) (body : Json) (pf : PriceFeed),
      fetch_price_feed pkg body = .ok pf →
      ∃ result data, body.get "result" = some result ∧ result.get "data" = some data ∧
        (data.get "type").bind Json.asStr = some (pkg ++ "::oracle_builder::PriceFeed")) ∧
    fetch_price_feed "0xaaa" (demoRpcBody "0xbbb") =
      .error ("Expected PriceFeed type 0xaaa::oracle_builder::PriceFeed, got "
        ++ "0xbbb::oracle_builder::PriceFeed") := by
  constructor
  · intro pkg body pf h
    unfold fetch_price_feed at h
    cases he : body.get "error" with
    | some e => rw [he] at h; exact Except.noConfusion h
    | none =>
    rw [he] at h
    dsimp only at h
    cases hres : body.get "result" with
    | none => rw [hres] at h; exact Except.noConfusion h
    | some result =>
    rw [hres] at h
    dsimp only at h
    cases hdata : result.get "data" with
    | none => rw [hdata] at h; exact Except.noConfusion h
    | some data =>
    rw [hdata] at h
    dsimp only at h
    cases hty : (data.get "type").bind Json.asStr with
    | none => rw [hty] at h; exact Except.noConfusion h
    | some ty =>
    rw [hty] at h
    dsimp only at h
    by_cases hne : ty ≠ pkg ++ "::oracle_builder::PriceFeed"
    · rw [if_pos hne] at h
      exact Except.noConfusion h
    · push_neg at hne
      exact ⟨result, data, by simp [hres], by simp [hdata], by simp [hty, hne]⟩
  · rfl

/-- C7 witness: the success direction applied to a concrete well-formed
response under the matching package id. -/
theorem claim7_type_check_witness :
    ∃ result data, (demoRpcBody "0xaaa").get "result" = some result ∧
      result.get "data" = some data ∧
      (data.get "type").bind Json.asStr = some ("0xaaa" ++ "::oracle_builder::PriceFeed") :=
  claim7_type_check.1 "0xaaa" (demoRpcBody "0xaaa")
    { oracle_id := "oracle-1", is_valid := true, api_key := none, api_key_config := none,
      underlying_url := "https://example.com/price", response_field := "price",
      live_url := "https://example.com/live" } rfl

/-- C8: building the signed envelope is deterministic and collision-free: the
byte string that is signed is equal for two `(scope, timestamp, payload)`
triples exactly when the triples are equal — so identical inputs serialize
(and hence sign, the signature being a function of key and bytes) to identical
bytes, and changing the payload, the timestamp or the scope alone changes the
signed bytes; in particular two distinct scope discriminants never produce
the same signed bytes. -/
theorem claim8_signing_deterministic_injective (s1 s2 t1 t2 : Nat)
    (p1 p2 : PayloadBytes) (ht1 : t1 < 2 ^ 64) (ht2 : t2 < 2 ^ 64)
    (hp1 : p1.price < 2 ^ 64 ∧ p1.timestampMs < 2 ^ 64)
    (hp2 : p2.price < 2 ^ 64 ∧ p2.timestampMs < 2 ^ 64) :
    signingBytes s1 t1 p1 = signingBytes s2 t2 p2 ↔ s1 = s2 ∧ t1 = t2 ∧ p1 = p2 := by
  constructor
  · intro h
    unfold signingBytes at h
    rw [List.append_assoc, List.append_assoc] at h
    obtain ⟨hs, h⟩ := uleb_append_inj h
    obtain ⟨hu, h⟩ := List.append_inj h (by rw [u64le_length, u64le_length])
    exact ⟨hs, u64le_inj ht1 ht2 hu, serPayload_inj hp1 hp2 h⟩
  · rintro ⟨rfl, rfl, rfl⟩
    rfl

/-- C8 witness: at two distinct scopes with identical timestamp and payload,
the signed bytes agree exactly when the scopes agree (hence they differ). -/
theorem claim8_signing_deterministic_injective_witness :
    signingBytes 0 5 ⟨[1], [2], 3, 4⟩ = signingBytes 1 5 ⟨[1], [2], 3, 4⟩ ↔
      (0 : Nat) = 1 ∧ (5 : Nat) = 5 ∧
        (⟨[1], [2], 3, 4⟩ : PayloadBytes) = ⟨[1], [2], 3, 4⟩ :=
  claim8_signing_deterministic_injective 0 1 5 5 ⟨[1], [2], 3, 4⟩ ⟨[1], [2], 3, 4⟩
    (by norm_num) (by norm_num) ⟨by norm_num, by norm_num⟩ ⟨by norm_num, by norm_num⟩

/-- C9: in every successful response the `timestamp_ms` inside the payload
equals the `timestamp_ms` of the enclosing signed message — the clock value is
read once and used in both places. -/
theorem claim9_single_timestamp {feedRes : Except String PriceFeed}
    {http : String → Option (String × String) → Except String (Except String Json)}
    {nowRes : Except String Nat} {d : Nat} {rid : String}
    {out : IntentMessage} {n : Nat}
    (h : processData feedRes http nowRes d rid = (.ok out, n)) :
    out.data.timestamp_ms = out.timestamp_ms := by
  unfold processData at h
  split at h
  · exact absurd h (by simp)
  split at h
  · exact absurd h (by simp)
  split at h
  · exact absurd h (by simp)
  split at h
  · exact absurd h (by simp)
  split at h
  · exact absurd h (by simp)
  split at h
  · exact absurd h (by simp)
  split at h
  · exact absurd h (by simp)
  split at h
  · exact absurd h (by simp)
  simp only [Prod.mk.injEq, Except.ok.injEq] at h
  rw [← h.1]

/-- C9 witness: a concrete successful run; both timestamps are 1234. -/
theorem claim9_single_timestamp_witness :
    ({ intent := priceFeedScope, timestamp_ms := 1234,
       data := { oracle_id := "o", price_feed_id := "rid",
                 price := 10050000000, timestamp_ms := 1234 } } : IntentMessage).data.timestamp_ms
      = ({ intent := priceFeedScope, timestamp_ms := 1234,
           data := { oracle_id := "o", price_feed_id := "rid",
                     price := 10050000000, timestamp_ms := 1234 } } : IntentMessage).timestamp_ms :=
  @claim9_single_timestamp (.ok feedW) (httpW bodyW) (.ok 1234) 8 "rid"
    (IntentMessage.mk priceFeedScope 1234
      (PriceFeedResponse.mk "o" "rid" 10050000000 1234)) 1 (by
    have hx : extract_field_from_json bodyW feedW.response_field = .ok (.str "100.5") :=
      extract_price_pos
    rw [@processData_run feedW (httpW bodyW) bodyW none rfl rfl rfl (.ok 1234) 8 "rid", hx]
    rfl)

/-- C10: an extracted value that parses to a strictly negative decimal never
reaches a signed envelope: the run fails, and in the 96-bit exact regime it
fails precisely with the u64-overflow error from `to_u64` returning `None` —
the negative value is never wrapped into an unsigned price. -/
theorem claim10_negative_price_rejected {feed : PriceFeed}
    {http : String → Option (String × String) → Except String (Except String Json)}
    {nowRes : Except String Nat} {d : Nat} {rid : String} {json v : Json}
    {x : Decimal} {hdr : Option (String × String)}
    (hvalid : feed.is_valid = true) (hauth : authHeader feed = .ok hdr)
    (hhttp : http feed.underlying_url hdr = .ok (.ok json))
    (hext : extract_field_from_json json feed.response_field = .ok v)
    (hparse : scalarToDecimal v feed.response_field = .ok x)
    (hneg : x.neg = true) :
    (∃ e, processData (.ok feed) http nowRes d rid = (.error e, 1)) ∧
    (x.m * 10 ^ d < 2 ^ 96 → 10 ^ d < 2 ^ 64 →
      processData (.ok feed) http nowRes d rid = (.error (overflowMsg d), 1)) := by
  have hrun := processData_run hvalid hauth hhttp nowRes d rid
  rw [hext] at hrun
  dsimp only at hrun
  have hnorm : ∀ r, scalePrice x d = r → normalizeValue v feed.response_field d = r := by
    intro r hr
    unfold normalizeValue
    rw [hparse]
    exact hr
  constructor
  · obtain ⟨e, he⟩ := scalePrice_neg_err (d := d) hneg
    rw [hnorm _ he] at hrun
    exact ⟨e, hrun⟩
  · intro hm hd
    have hs := (scalarToDecimal_valid hparse).2
    rw [hnorm _ (scalePrice_neg_exact hm hs hd hneg)] at hrun
    exact hrun

/-- C10 witness: the response value `"-5"` at 8 configured decimals fails with
the overflow-style error and produces no envelope. -/
theorem claim10_negative_price_rejected_witness :
    (∃ e, processData (.ok feedW) (httpW bodyNegW) (.ok 1234) 8 "rid" = (.error e, 1)) ∧
    (5 * 10 ^ 8 < 2 ^ 96 → 10 ^ 8 < 2 ^ 64 →
      processData (.ok feedW) (httpW bodyNegW) (.ok 1234) 8 "rid"
        = (.error (overflowMsg 8), 1)) :=
  claim10_negative_price_rejected (x := ⟨true, 5, 0⟩)
    rfl rfl rfl extract_price_negval rfl rfl

end Claims

end Pismo
